import Mathlib

/-!
Shallow embedding of `timer.py` (RaspberryPiGymTimer): a Raspberry Pi gym
countdown timer driving a UnicornHATMini LED matrix, with three GPIO buttons.

Modelling conventions:
* Python integers are `Int`; `int(a / b)` on integers truncates toward zero,
  which is `Int.tdiv`; Python `a % b` with a positive divisor is `Int.emod`.
* The output device (`unicornhatmini`) is modelled as an event sink: the
  `set_pixel` and `show` calls a method performs are collected in order into a
  `List Ev`.  A Python `IndexError` (list index out of range) is modelled by a
  `false` success flag (for `Display.update`) or by `none` (for the raw lookup):
  the events emitted before the error are kept, nothing after it runs.
* Floating-point brightness values are modelled as rationals; `int(c * br)`
  is the floor (they coincide for the nonnegative values involved).
-/

/-- One observable operation on the output device: `set_pixel(x, y, r, g, b)`
or `show()` (named `present` here because `show` is a Lean keyword). -/
inductive Ev where
  | setPixel (x y r g b : Int)
  | present
deriving DecidableEq, Repr

/-- `digits_5x3` from the source: digits as 3x5 pixel elements stored as 15
bits, MSB is top-left, each 5 bits are a column. -/
def digits_5x3 : List Nat := [
  0b111111000111111,  -- 0
  0b100011111100001,  -- 1
  0b101111010111101,  -- 2
  0b101011010111111,  -- 3
  0b111000010011111,  -- 4
  0b111011010110111,  -- 5
  0b111111010100111,  -- 6
  0b100001000011111,  -- 7
  0b111111010111111,  -- 8
  0b111001010011111   -- 9
]

/-- Python list indexing `l[i]`: a negative index counts from the end
(`l[i]` is `l[len(l) + i]` for `-len(l) ≤ i < 0`); an index out of range
raises `IndexError`, modelled as `none`. -/
def pyIndex (l : List Nat) (i : Int) : Option Nat :=
  let j : Int := if i < 0 then i + l.length else i
  if 0 ≤ j ∧ j < l.length then l.get? j.toNat else none

/-- The mutable state of the `Display` class (the fields its methods read or
write; the wrapped output device itself is the event sink, and the unused
`_width`/`_height`/`_level` and the four constant colour attributes are
omitted). -/
structure Display where
  br_red : ℚ
  br_green : ℚ
  br_blue : ℚ
  br_yellow : ℚ
  minutes : Int
  seconds : Int
  digit_left_br : ℚ
  digit_right_br : ℚ
  digit_left_color : Int × Int × Int
  digit_right_color : Int × Int × Int
deriving DecidableEq, Repr

/-- `Display.__init__`: the initial field values. -/
def Display.init : Display :=
  { br_red := 0, br_green := 0, br_blue := 0, br_yellow := 0
    minutes := 0, seconds := 0
    digit_left_br := 1, digit_right_br := 1
    digit_left_color := (128, 128, 128)
    digit_right_color := (128, 128, 128) }

/-- The events emitted by the two loops of `Display._draw_digit` once the
glyph bits are in hand: for `dx` in `range(3)`, `cols[dx]` is
`(bits >> (10 - 5*dx)) & 0b11111`, and for `dy` in `range(5)` a pixel is set
at `(x + dx, y + dy)` exactly when `cols[dx] & (1 << (4 - dy))` is nonzero. -/
def Display.digitEvents (bits : Nat) (x y : Int) (r g b : Int) : List Ev :=
  (List.range 3).flatMap fun dx =>
    (List.range 5).filterMap fun dy =>
      if ((bits >>> (10 - 5 * dx)) &&& 0b11111) &&& (1 <<< (4 - dy)) ≠ 0 then
        some (Ev.setPixel (x + dx) (y + dy) r g b)
      else none

/-- `Display._draw_digit(digit, x, y, r, g, b)`: looks the glyph up with
Python list indexing (so a negative `digit` counts from the end of
`digits_5x3` and an out-of-range `digit` raises `IndexError`, modelled as
`none`), then emits one `set_pixel` per lit cell. -/
def Display.draw_digit (digit : Int) (x y : Int) (r g b : Int) : Option (List Ev) :=
  (pyIndex digits_5x3 digit).map fun bits => Display.digitEvents bits x y r g b

/-- `Display.set_digits(minutes, seconds)`. -/
def Display.set_digits (d : Display) (minutes seconds : Int) : Display :=
  { d with minutes := minutes, seconds := seconds }

/-- `Display.set_digit_brightness(left, right)`. -/
def Display.set_digit_brightness (d : Display) (left right : ℚ) : Display :=
  { d with digit_left_br := left, digit_right_br := right }

/-- `Display.set_digit_color(left, right)`. -/
def Display.set_digit_color (d : Display) (left right : Int × Int × Int) : Display :=
  { d with digit_left_color := left, digit_right_color := right }

/-- `Display.set_light_brightness(red, green, blue, yellow)`. -/
def Display.set_light_brightness (d : Display) (red green blue yellow : ℚ) : Display :=
  { d with br_red := red, br_green := green, br_blue := blue, br_yellow := yellow }

/-- The two pixels of `Display._draw_colon(255, 0, 0)` as called by `update`. -/
def Display.colonEvents : List Ev :=
  [Ev.setPixel 8 2 255 0 0, Ev.setPixel 8 4 255 0 0]

/-- `[int(c * br) for c in color]`: a colour component-wise multiplied by a
brightness scalar and floored to integer (the scaling formula `update`
computes into its local `r, g, b` variables). -/
def scaledColor (c : Int × Int × Int) (br : ℚ) : Int × Int × Int :=
  (⌊(c.1 : ℚ) * br⌋, ⌊(c.2.1 : ℚ) * br⌋, ⌊(c.2.2 : ℚ) * br⌋)

/-- `Display.update(minutes, seconds)`: stores the digits, then draws the
four digit glyphs and the colon and finally calls `show()`.  The source
computes `r, g, b = [int(c * self._digit_left_br) for c in
self._digit_left_color]` (and likewise for the right field) before each draw
call, but those local variables are never used: every `_draw_digit` call
passes the literal colours `(249, 82, 255)` (minutes) and `(5, 255, 161)`
(seconds).  The dead assignments have no observable effect and are not
re-bound here.  Returns the updated display state, the emitted event list, and
`false` if a glyph lookup raised `IndexError` (truncating the event list at
the failing call, nothing after it running). -/
def Display.update (d : Display) (minutes seconds : Int) : Display × List Ev × Bool :=
  let d' := Display.set_digits d minutes seconds
  match Display.draw_digit (Int.tdiv d'.minutes 10) 1 1 249 82 255 with
  | none => (d', [], false)
  | some t1 =>
    match Display.draw_digit (Int.emod d'.minutes 10) 5 1 249 82 255 with
    | none => (d', t1, false)
    | some t2 =>
      match Display.draw_digit (Int.tdiv d'.seconds 10) 9 1 5 255 161 with
      | none => (d', t1 ++ t2, false)
      | some t3 =>
        match Display.draw_digit (Int.emod d'.seconds 10) 13 1 5 255 161 with
        | none => (d', t1 ++ t2 ++ t3, false)
        | some t4 =>
          (d', t1 ++ t2 ++ t3 ++ t4 ++ Display.colonEvents ++ [Ev.present], true)

/-- The mutable state of the `Timer` class: the held `Display` and the
`_seconds`, `_minutes`, `_timerCount` counters. -/
structure Timer where
  display : Display
  seconds : Int
  minutes : Int
  timerCount : Int
deriving DecidableEq, Repr

/-- `Timer.__init__(display)`: stores the display, writes `(5, 1)` into the
display's digit registers, sets the four light brightnesses to 1, and starts
its own counters at `seconds = 0`, `minutes = 0`, `timerCount = 0`. -/
def Timer.init (d : Display) : Timer :=
  { display := Display.set_light_brightness (Display.set_digits d 5 1) 1 1 1 1
    seconds := 0, minutes := 0, timerCount := 0 }

/-- `Timer.key_1`: the +1-minute button handler. -/
def Timer.key_1 (t : Timer) : Timer :=
  { t with minutes := t.minutes + 1 }

/-- `Timer.key_2`: the +30-seconds button handler.  The source tests
`self._seconds / 60 > 1` with Python float division, which for the integer
values involved holds exactly when `60 < seconds`. -/
def Timer.key_2 (t : Timer) : Timer :=
  let s := t.seconds + 30
  if 60 < s then { t with seconds := s - 60, minutes := t.minutes + 1 }
  else { t with seconds := s }

/-- `Timer.key_3`: the reset button handler. -/
def Timer.key_3 (t : Timer) : Timer :=
  { t with seconds := 0, minutes := 0 }

/-- The counter logic of `Timer.update` (the code after the display call):
increment `_timerCount`; when it reaches a multiple of 20, zero it and count
one unit down (`seconds -= 1` if positive, else borrow a minute as 59
seconds if any minute is left).  Returns `(minutes, seconds, timerCount)`. -/
def Timer.tickCounters (minutes seconds timerCount : Int) : Int × Int × Int :=
  let c := timerCount + 1
  if Int.emod c 20 = 0 then
    if 0 < seconds then (minutes, seconds - 1, 0)
    else if seconds = 0 ∧ 0 < minutes then (minutes - 1, 59, 0)
    else (minutes, seconds, 0)
  else (minutes, seconds, c)

/-- `Timer.update`: first `self._display.update(self._minutes,
self._seconds)`, then the counter logic.  When the display call raises
(success flag `false`) the exception propagates before `_timerCount += 1`
runs, so the counters are unchanged; the display had already stored the
digits, and the partially emitted events stand. -/
def Timer.update (t : Timer) : Timer × List Ev × Bool :=
  let r := Display.update t.display t.minutes t.seconds
  if r.2.2 = true then
    let c := Timer.tickCounters t.minutes t.seconds t.timerCount
    ({ display := r.1, minutes := c.1, seconds := c.2.1, timerCount := c.2.2 },
     r.2.1, true)
  else
    ({ t with display := r.1 }, r.2.1, false)

/-- One tick of the main loop as a state transformer (the state reached after
a `timer.update()` call). -/
def Timer.step (t : Timer) : Timer := (Timer.update t).1

/-! ### Reading a rendered frame back

To state the round-trip property ("the rendered glyphs decode, via the
inverse of the bitmap-font mapping, to the displayed time") we read the
emitted event list back: a cell is lit when some `set_pixel` event hit it,
a glyph slot is re-assembled into its 15-bit pattern, and the pattern is
looked up in `digits_5x3`. -/

/-- Whether some `set_pixel` event in `es` wrote the cell `(x, y)`
(with any colour). -/
def hitCell (es : List Ev) (x y : Int) : Bool :=
  es.any fun e =>
    match e with
    | Ev.setPixel px py _ _ _ => px == x && py == y
    | Ev.present => false

/-- The contribution of local cell `(dx, dy)` of the glyph slot based at
column `x0` (glyph rows start at y = 1) to the re-assembled bit pattern. -/
def cellW (es : List Ev) (x0 : Int) (dx dy : Nat) : Nat :=
  if hitCell es (x0 + dx) (1 + dy) then 2 ^ (14 - 5 * dx - dy) else 0

/-- The 15-bit pattern read back from the 3x5 glyph slot based at column
`x0`: MSB is top-left, each 5 bits are a column (the `digits_5x3` layout). -/
def slotPattern (es : List Ev) (x0 : Int) : Nat :=
  cellW es x0 0 0 + cellW es x0 0 1 + cellW es x0 0 2 + cellW es x0 0 3 + cellW es x0 0 4 +
  cellW es x0 1 0 + cellW es x0 1 1 + cellW es x0 1 2 + cellW es x0 1 3 + cellW es x0 1 4 +
  cellW es x0 2 0 + cellW es x0 2 1 + cellW es x0 2 2 + cellW es x0 2 3 + cellW es x0 2 4

/-- The digit value whose glyph matches the pattern read back from the slot
at column `x0` (the inverse of the `digits_5x3` mapping), if any. -/
def decodeSlot (es : List Ev) (x0 : Int) : Option Nat :=
  digits_5x3.findIdx? fun p => p == slotPattern es x0

/-- Decode the four glyph slots of a frame (columns 1, 5, 9, 13) into the
displayed `(minutes, seconds)` pair. -/
def decodeTime (es : List Ev) : Option (Nat × Nat) :=
  match decodeSlot es 1, decodeSlot es 5, decodeSlot es 9, decodeSlot es 13 with
  | some a, some b, some c, some d => some (10 * a + b, 10 * c + d)
  | _, _, _, _ => none

/-- The bit pattern re-assembled from the lit cells of `bits` itself: used to
round-trip a drawn glyph. -/
def recompose (bits : Nat) : Nat :=
  let w : Nat → Nat → Nat := fun dx dy =>
    if (((bits >>> (10 - 5 * dx)) &&& 0b11111) &&& (1 <<< (4 - dy)) ≠ 0)
    then 2 ^ (14 - 5 * dx - dy) else 0
  w 0 0 + w 0 1 + w 0 2 + w 0 3 + w 0 4 +
  w 1 0 + w 1 1 + w 1 2 + w 1 3 + w 1 4 +
  w 2 0 + w 2 1 + w 2 2 + w 2 3 + w 2 4

/-- The event list of one successfully rendered frame, given the four glyph
bit patterns drawn at columns 1, 5, 9 and 13. -/
def frameEvents (g1 g2 g3 g4 : Nat) : List Ev :=
  Display.digitEvents g1 1 1 249 82 255 ++ Display.digitEvents g2 5 1 249 82 255 ++
  Display.digitEvents g3 9 1 5 255 161 ++ Display.digitEvents g4 13 1 5 255 161 ++
  Display.colonEvents ++ [Ev.present]

/-- Nested-if form of `Timer.tickCounters` (the let-bound counter spelled
out). -/
theorem tickCounters_cases (m s c : Int) :
    Timer.tickCounters m s c =
      if Int.emod (c + 1) 20 = 0 then
        if 0 < s then (m, s - 1, 0)
        else if s = 0 ∧ 0 < m then (m - 1, 59, 0)
        else (m, s, 0)
      else (m, s, c + 1) := rfl

/-- If-form of `Timer.key_2` (the let-bound sum spelled out). -/
theorem key_2_cases (t : Timer) :
    Timer.key_2 t =
      if 60 < t.seconds + 30 then
        { t with seconds := t.seconds + 30 - 60, minutes := t.minutes + 1 }
      else { t with seconds := t.seconds + 30 } := rfl

/-! ### Structural lemmas about drawn glyphs -/

theorem mem_digitEvents {e : Ev} {bits : Nat} {x y r g b : Int} :
    e ∈ Display.digitEvents bits x y r g b ↔
      ∃ dx dy : Nat, dx < 3 ∧ dy < 5 ∧
        (((bits >>> (10 - 5 * dx)) &&& 0b11111) &&& (1 <<< (4 - dy)) ≠ 0) ∧
        e = Ev.setPixel (x + dx) (y + dy) r g b := by
  constructor
  · intro h
    simp only [Display.digitEvents, List.mem_flatMap, List.mem_filterMap,
      List.mem_range] at h
    obtain ⟨dx, hdx, dy, hdy, he⟩ := h
    by_cases hz : (((bits >>> (10 - 5 * dx)) &&& 0b11111) &&& (1 <<< (4 - dy)) ≠ 0)
    · rw [if_pos hz] at he
      exact ⟨dx, dy, hdx, hdy, hz, (Option.some_inj.mp he).symm⟩
    · rw [if_neg hz] at he
      exact Option.noConfusion he
  · rintro ⟨dx, dy, hdx, hdy, hbit, rfl⟩
    simp only [Display.digitEvents, List.mem_flatMap, List.mem_filterMap,
      List.mem_range]
    exact ⟨dx, hdx, dy, hdy, by rw [if_pos hbit]⟩

theorem hitCell_append (a b : List Ev) (x y : Int) :
    hitCell (a ++ b) x y = (hitCell a x y || hitCell b x y) := by
  simp [hitCell, List.any_append]

/-- A glyph slot based at `x0` never writes a cell whose column is not one of
`x0`, `x0 + 1`, `x0 + 2`. -/
theorem hitCell_digitEvents_of_ne {bits : Nat} {x0 y0 r g b x y : Int}
    (h : ∀ dx : Nat, dx < 3 → x0 + dx ≠ x) :
    hitCell (Display.digitEvents bits x0 y0 r g b) x y = false := by
  rw [hitCell, List.any_eq_false]
  intro e he
  obtain ⟨dx, dy, hdx, _, _, rfl⟩ := mem_digitEvents.mp he
  have hne : x0 + (dx : Int) ≠ x := h dx hdx
  simp [hne]

/-- Reading a cell of the slot a glyph was drawn into recovers exactly the
glyph's bit at that cell. -/
theorem hitCell_digitEvents (bits : Nat) (x0 y0 r g b : Int) (dx dy : Nat)
    (hdx : dx < 3) (hdy : dy < 5) :
    hitCell (Display.digitEvents bits x0 y0 r g b) (x0 + dx) (y0 + dy) =
      decide (((bits >>> (10 - 5 * dx)) &&& 0b11111) &&& (1 <<< (4 - dy)) ≠ 0) := by
  by_cases hbit : (((bits >>> (10 - 5 * dx)) &&& 0b11111) &&& (1 <<< (4 - dy)) ≠ 0)
  · rw [decide_eq_true hbit]
    rw [hitCell, List.any_eq_true]
    refine ⟨Ev.setPixel (x0 + dx) (y0 + dy) r g b,
      mem_digitEvents.mpr ⟨dx, dy, hdx, hdy, hbit, rfl⟩, by simp⟩
  · rw [decide_eq_false hbit]
    rw [hitCell, List.any_eq_false]
    intro e he
    obtain ⟨dx', dy', hdx', hdy', hbit', rfl⟩ := mem_digitEvents.mp he
    rw [Bool.not_eq_true]
    show (x0 + (dx' : Int) == x0 + (dx : Int) && y0 + (dy' : Int) == y0 + (dy : Int)) = false
    by_cases hxx : dx' = dx
    · subst hxx
      have hne : y0 + (dy' : Int) ≠ y0 + (dy : Int) := by
        intro hc
        have hdd : dy' = dy := by
          have : (dy' : Int) = (dy : Int) := by omega
          exact_mod_cast this
        exact hbit (hdd ▸ hbit')
      simp [hne]
    · have hne : x0 + (dx' : Int) ≠ x0 + (dx : Int) := by
        intro hc
        have : (dx' : Int) = (dx : Int) := by omega
        exact hxx (by exact_mod_cast this)
      simp [hne]

/-- No glyph slot ever emits a `show` event. -/
theorem present_not_mem_digitEvents (bits : Nat) (x y r g b : Int) :
    Ev.present ∉ Display.digitEvents bits x y r g b := by
  intro h
  obtain ⟨_, _, _, _, _, he⟩ := mem_digitEvents.mp h
  exact Ev.noConfusion he

theorem hitCell_colonEvents_of_ne {x y : Int} (h : x ≠ 8) :
    hitCell Display.colonEvents x y = false := by
  have h8 : ((8 : Int) == x) = false := beq_eq_false_iff_ne.mpr (Ne.symm h)
  simp [hitCell, Display.colonEvents, h8]

theorem hitCell_present_list (x y : Int) : hitCell [Ev.present] x y = false := rfl

theorem slotPattern_congr {es1 es2 : List Ev} {x0 : Int}
    (h : ∀ dx dy : Nat, dx < 3 → dy < 5 →
      hitCell es1 (x0 + dx) (1 + dy) = hitCell es2 (x0 + dx) (1 + dy)) :
    slotPattern es1 x0 = slotPattern es2 x0 := by
  unfold slotPattern cellW
  rw [h 0 0 (by norm_num) (by norm_num), h 0 1 (by norm_num) (by norm_num),
    h 0 2 (by norm_num) (by norm_num), h 0 3 (by norm_num) (by norm_num),
    h 0 4 (by norm_num) (by norm_num), h 1 0 (by norm_num) (by norm_num),
    h 1 1 (by norm_num) (by norm_num), h 1 2 (by norm_num) (by norm_num),
    h 1 3 (by norm_num) (by norm_num), h 1 4 (by norm_num) (by norm_num),
    h 2 0 (by norm_num) (by norm_num), h 2 1 (by norm_num) (by norm_num),
    h 2 2 (by norm_num) (by norm_num), h 2 3 (by norm_num) (by norm_num),
    h 2 4 (by norm_num) (by norm_num)]

/-- Reading back slot 1 of a full frame sees only the glyph drawn at
column 1. -/
theorem slotPattern_frame_1 (g1 g2 g3 g4 : Nat) :
    slotPattern (frameEvents g1 g2 g3 g4) 1 =
      slotPattern (Display.digitEvents g1 1 1 249 82 255) 1 := by
  apply slotPattern_congr
  intro dx dy hdx hdy
  have hB : hitCell (Display.digitEvents g2 5 1 249 82 255) (1 + (dx : Int)) (1 + (dy : Int)) = false :=
    hitCell_digitEvents_of_ne (fun dx' h' => by omega)
  have hC : hitCell (Display.digitEvents g3 9 1 5 255 161) (1 + (dx : Int)) (1 + (dy : Int)) = false :=
    hitCell_digitEvents_of_ne (fun dx' h' => by omega)
  have hD : hitCell (Display.digitEvents g4 13 1 5 255 161) (1 + (dx : Int)) (1 + (dy : Int)) = false :=
    hitCell_digitEvents_of_ne (fun dx' h' => by omega)
  have hE : hitCell Display.colonEvents (1 + (dx : Int)) (1 + (dy : Int)) = false :=
    hitCell_colonEvents_of_ne (by omega)
  rw [frameEvents, hitCell_append, hitCell_append, hitCell_append, hitCell_append,
    hitCell_append, hB, hC, hD, hE, hitCell_present_list]
  simp

theorem slotPattern_frame_5 (g1 g2 g3 g4 : Nat) :
    slotPattern (frameEvents g1 g2 g3 g4) 5 =
      slotPattern (Display.digitEvents g2 5 1 249 82 255) 5 := by
  apply slotPattern_congr
  intro dx dy hdx hdy
  have hA : hitCell (Display.digitEvents g1 1 1 249 82 255) (5 + (dx : Int)) (1 + (dy : Int)) = false :=
    hitCell_digitEvents_of_ne (fun dx' h' => by omega)
  have hC : hitCell (Display.digitEvents g3 9 1 5 255 161) (5 + (dx : Int)) (1 + (dy : Int)) = false :=
    hitCell_digitEvents_of_ne (fun dx' h' => by omega)
  have hD : hitCell (Display.digitEvents g4 13 1 5 255 161) (5 + (dx : Int)) (1 + (dy : Int)) = false :=
    hitCell_digitEvents_of_ne (fun dx' h' => by omega)
  have hE : hitCell Display.colonEvents (5 + (dx : Int)) (1 + (dy : Int)) = false :=
    hitCell_colonEvents_of_ne (by omega)
  rw [frameEvents, hitCell_append, hitCell_append, hitCell_append, hitCell_append,
    hitCell_append, hA, hC, hD, hE, hitCell_present_list]
  simp

theorem slotPattern_frame_9 (g1 g2 g3 g4 : Nat) :
    slotPattern (frameEvents g1 g2 g3 g4) 9 =
      slotPattern (Display.digitEvents g3 9 1 5 255 161) 9 := by
  apply slotPattern_congr
  intro dx dy hdx hdy
  have hA : hitCell (Display.digitEvents g1 1 1 249 82 255) (9 + (dx : Int)) (1 + (dy : Int)) = false :=
    hitCell_digitEvents_of_ne (fun dx' h' => by omega)
  have hB : hitCell (Display.digitEvents g2 5 1 249 82 255) (9 + (dx : Int)) (1 + (dy : Int)) = false :=
    hitCell_digitEvents_of_ne (fun dx' h' => by omega)
  have hD : hitCell (Display.digitEvents g4 13 1 5 255 161) (9 + (dx : Int)) (1 + (dy : Int)) = false :=
    hitCell_digitEvents_of_ne (fun dx' h' => by omega)
  have hE : hitCell Display.colonEvents (9 + (dx : Int)) (1 + (dy : Int)) = false :=
    hitCell_colonEvents_of_ne (by omega)
  rw [frameEvents, hitCell_append, hitCell_append, hitCell_append, hitCell_append,
    hitCell_append, hA, hB, hD, hE, hitCell_present_list]
  simp

theorem slotPattern_frame_13 (g1 g2 g3 g4 : Nat) :
    slotPattern (frameEvents g1 g2 g3 g4) 13 =
      slotPattern (Display.digitEvents g4 13 1 5 255 161) 13 := by
  apply slotPattern_congr
  intro dx dy hdx hdy
  have hA : hitCell (Display.digitEvents g1 1 1 249 82 255) (13 + (dx : Int)) (1 + (dy : Int)) = false :=
    hitCell_digitEvents_of_ne (fun dx' h' => by omega)
  have hB : hitCell (Display.digitEvents g2 5 1 249 82 255) (13 + (dx : Int)) (1 + (dy : Int)) = false :=
    hitCell_digitEvents_of_ne (fun dx' h' => by omega)
  have hC : hitCell (Display.digitEvents g3 9 1 5 255 161) (13 + (dx : Int)) (1 + (dy : Int)) = false :=
    hitCell_digitEvents_of_ne (fun dx' h' => by omega)
  have hE : hitCell Display.colonEvents (13 + (dx : Int)) (1 + (dy : Int)) = false :=
    hitCell_colonEvents_of_ne (by omega)
  rw [frameEvents, hitCell_append, hitCell_append, hitCell_append, hitCell_append,
    hitCell_append, hA, hB, hC, hE, hitCell_present_list]
  simp

/-- Drawing the glyph of a digit and reading the slot back recovers the
glyph's bit pattern. -/
theorem slotPattern_glyph (k : Nat) (hk : k < 10) (x0 r g b : Int) :
    slotPattern (Display.digitEvents (digits_5x3.getD k 0) x0 1 r g b) x0 =
      digits_5x3.getD k 0 := by
  unfold slotPattern cellW
  rw [hitCell_digitEvents _ _ _ _ _ _ 0 0 (by norm_num) (by norm_num),
    hitCell_digitEvents _ _ _ _ _ _ 0 1 (by norm_num) (by norm_num),
    hitCell_digitEvents _ _ _ _ _ _ 0 2 (by norm_num) (by norm_num),
    hitCell_digitEvents _ _ _ _ _ _ 0 3 (by norm_num) (by norm_num),
    hitCell_digitEvents _ _ _ _ _ _ 0 4 (by norm_num) (by norm_num),
    hitCell_digitEvents _ _ _ _ _ _ 1 0 (by norm_num) (by norm_num),
    hitCell_digitEvents _ _ _ _ _ _ 1 1 (by norm_num) (by norm_num),
    hitCell_digitEvents _ _ _ _ _ _ 1 2 (by norm_num) (by norm_num),
    hitCell_digitEvents _ _ _ _ _ _ 1 3 (by norm_num) (by norm_num),
    hitCell_digitEvents _ _ _ _ _ _ 1 4 (by norm_num) (by norm_num),
    hitCell_digitEvents _ _ _ _ _ _ 2 0 (by norm_num) (by norm_num),
    hitCell_digitEvents _ _ _ _ _ _ 2 1 (by norm_num) (by norm_num),
    hitCell_digitEvents _ _ _ _ _ _ 2 2 (by norm_num) (by norm_num),
    hitCell_digitEvents _ _ _ _ _ _ 2 3 (by norm_num) (by norm_num),
    hitCell_digitEvents _ _ _ _ _ _ 2 4 (by norm_num) (by norm_num)]
  interval_cases k <;> decide

/-- `digits_5x3` has no duplicate patterns: looking a glyph up by value
recovers its digit. -/
theorem findIdx_glyph : ∀ k : Nat, k < 10 →
    digits_5x3.findIdx? (fun p => p == digits_5x3.getD k 0) = some k := by decide

theorem pyIndex_digits (k : Nat) (hk : k < 10) :
    pyIndex digits_5x3 (k : Int) = some (digits_5x3.getD k 0) := by
  interval_cases k <;> rfl

/-- `Display.update` on in-range arguments: the digits are stored, the frame
is the four glyphs (tens and ones of each field) plus the colon followed by
a single `show`, and no lookup fails. -/
theorem display_update_eq (d : Display) (m s : Nat) (hm : m ≤ 99) (hs : s ≤ 99) :
    Display.update d (m : Int) (s : Int) =
      (Display.set_digits d (m : Int) (s : Int),
       frameEvents (digits_5x3.getD (m / 10) 0) (digits_5x3.getD (m % 10) 0)
         (digits_5x3.getD (s / 10) 0) (digits_5x3.getD (s % 10) 0), true) := by
  have h1 : Display.draw_digit (Int.tdiv (m : Int) 10) 1 1 249 82 255 =
      some (Display.digitEvents (digits_5x3.getD (m / 10) 0) 1 1 249 82 255) := by
    rw [show Int.tdiv (m : Int) 10 = ((m / 10 : Nat) : Int) from rfl,
      Display.draw_digit, pyIndex_digits _ (by omega)]
    rfl
  have h2 : Display.draw_digit (Int.emod (m : Int) 10) 5 1 249 82 255 =
      some (Display.digitEvents (digits_5x3.getD (m % 10) 0) 5 1 249 82 255) := by
    rw [show Int.emod (m : Int) 10 = ((m % 10 : Nat) : Int) from rfl,
      Display.draw_digit, pyIndex_digits _ (by omega)]
    rfl
  have h3 : Display.draw_digit (Int.tdiv (s : Int) 10) 9 1 5 255 161 =
      some (Display.digitEvents (digits_5x3.getD (s / 10) 0) 9 1 5 255 161) := by
    rw [show Int.tdiv (s : Int) 10 = ((s / 10 : Nat) : Int) from rfl,
      Display.draw_digit, pyIndex_digits _ (by omega)]
    rfl
  have h4 : Display.draw_digit (Int.emod (s : Int) 10) 13 1 5 255 161 =
      some (Display.digitEvents (digits_5x3.getD (s % 10) 0) 13 1 5 255 161) := by
    rw [show Int.emod (s : Int) 10 = ((s % 10 : Nat) : Int) from rfl,
      Display.draw_digit, pyIndex_digits _ (by omega)]
    rfl
  simp only [Display.update, Display.set_digits, h1, h2, h3, h4, frameEvents]

/-- On in-range arguments no glyph lookup of `Display.update` fails. -/
theorem display_ok (d : Display) (m s : Int) (hm0 : 0 ≤ m) (hm : m ≤ 99)
    (hs0 : 0 ≤ s) (hs : s ≤ 99) : (Display.update d m s).2.2 = true := by
  obtain ⟨a, rfl⟩ := Int.eq_ofNat_of_zero_le hm0
  obtain ⟨b, rfl⟩ := Int.eq_ofNat_of_zero_le hs0
  rw [display_update_eq d a b (by exact_mod_cast hm) (by exact_mod_cast hs)]

/-- For an index of 10 or more, the glyph lookup raises `IndexError`. -/
theorem pyIndex_ge_ten (j : Int) (hj : 10 ≤ j) : pyIndex digits_5x3 j = none := by
  have hl : ((digits_5x3.length : Nat) : Int) = 10 := rfl
  simp only [pyIndex, hl]
  rw [if_neg (show ¬ j < 0 by omega), if_neg (by omega)]

/-- For an index of -11 or less, the glyph lookup raises `IndexError`. -/
theorem pyIndex_le_neg (j : Int) (hj : j ≤ -11) : pyIndex digits_5x3 j = none := by
  have hl : ((digits_5x3.length : Nat) : Int) = 10 := rfl
  simp only [pyIndex, hl]
  rw [if_pos (show j < 0 by omega), if_neg (by omega)]

/-- For minutes of 100 or more, `Display.update` fails at the very first
glyph (the minute tens digit is 10 or more): nothing is drawn and no frame
is presented. -/
theorem display_update_overflow (d : Display) (m s : Nat) (hm : 100 ≤ m) :
    Display.update d (m : Int) (s : Int) =
      (Display.set_digits d (m : Int) (s : Int), [], false) := by
  have h1 : Display.draw_digit (Int.tdiv (m : Int) 10) 1 1 249 82 255 = none := by
    rw [show Int.tdiv (m : Int) 10 = ((m / 10 : Nat) : Int) from rfl,
      Display.draw_digit, pyIndex_ge_ten _ (by omega)]
    rfl
  simp only [Display.update, Display.set_digits, h1]

/-- Round trip: an in-range frame rendered by `Display.update` succeeds and
its glyphs decode back to the displayed `(minutes, seconds)` pair. -/
theorem decodeTime_update (d : Display) (m s : Nat) (hm : m ≤ 99) (hs : s ≤ 59) :
    (Display.update d (m : Int) (s : Int)).2.2 = true ∧
      decodeTime (Display.update d (m : Int) (s : Int)).2.1 = some (m, s) := by
  rw [display_update_eq d m s hm (by omega)]
  refine ⟨rfl, ?_⟩
  have e1 : decodeSlot (frameEvents (digits_5x3.getD (m / 10) 0)
      (digits_5x3.getD (m % 10) 0) (digits_5x3.getD (s / 10) 0)
      (digits_5x3.getD (s % 10) 0)) 1 = some (m / 10) := by
    rw [decodeSlot, slotPattern_frame_1, slotPattern_glyph (m / 10) (by omega)]
    exact findIdx_glyph _ (by omega)
  have e2 : decodeSlot (frameEvents (digits_5x3.getD (m / 10) 0)
      (digits_5x3.getD (m % 10) 0) (digits_5x3.getD (s / 10) 0)
      (digits_5x3.getD (s % 10) 0)) 5 = some (m % 10) := by
    rw [decodeSlot, slotPattern_frame_5, slotPattern_glyph (m % 10) (by omega)]
    exact findIdx_glyph _ (by omega)
  have e3 : decodeSlot (frameEvents (digits_5x3.getD (m / 10) 0)
      (digits_5x3.getD (m % 10) 0) (digits_5x3.getD (s / 10) 0)
      (digits_5x3.getD (s % 10) 0)) 9 = some (s / 10) := by
    rw [decodeSlot, slotPattern_frame_9, slotPattern_glyph (s / 10) (by omega)]
    exact findIdx_glyph _ (by omega)
  have e4 : decodeSlot (frameEvents (digits_5x3.getD (m / 10) 0)
      (digits_5x3.getD (m % 10) 0) (digits_5x3.getD (s / 10) 0)
      (digits_5x3.getD (s % 10) 0)) 13 = some (s % 10) := by
    rw [decodeSlot, slotPattern_frame_13, slotPattern_glyph (s % 10) (by omega)]
    exact findIdx_glyph _ (by omega)
  rw [decodeTime, e1, e2, e3, e4]
  have hm' : 10 * (m / 10) + m % 10 = m := by omega
  have hs' : 10 * (s / 10) + s % 10 = s := by omega
  show some (10 * (m / 10) + m % 10, 10 * (s / 10) + s % 10) = some (m, s)
  rw [hm', hs']

/-- When the display call succeeds, one `Timer.update` applies exactly the
counter logic. -/
theorem step_counters (t : Timer)
    (h : (Display.update t.display t.minutes t.seconds).2.2 = true) :
    (Timer.step t).minutes = (Timer.tickCounters t.minutes t.seconds t.timerCount).1 ∧
    (Timer.step t).seconds = (Timer.tickCounters t.minutes t.seconds t.timerCount).2.1 ∧
    (Timer.step t).timerCount = (Timer.tickCounters t.minutes t.seconds t.timerCount).2.2 := by
  simp [Timer.step, Timer.update, h]

/-- When the display call fails, the exception propagates before any counter
is touched. -/
theorem step_counters_fail (t : Timer)
    (h : (Display.update t.display t.minutes t.seconds).2.2 = false) :
    (Timer.step t).minutes = t.minutes ∧
    (Timer.step t).seconds = t.seconds ∧
    (Timer.step t).timerCount = t.timerCount := by
  simp [Timer.step, Timer.update, h]

/-- Every event `Display.update` emits (also on a run cut short by a failed
lookup) comes from one of the four glyph slots, the colon, or the final
`show`. -/
theorem mem_update_trace {e : Ev} {d : Display} {m s : Int}
    (h : e ∈ (Display.update d m s).2.1) :
    (∃ bits, e ∈ Display.digitEvents bits 1 1 249 82 255) ∨
    (∃ bits, e ∈ Display.digitEvents bits 5 1 249 82 255) ∨
    (∃ bits, e ∈ Display.digitEvents bits 9 1 5 255 161) ∨
    (∃ bits, e ∈ Display.digitEvents bits 13 1 5 255 161) ∨
    e ∈ Display.colonEvents ∨ e = Ev.present := by
  simp only [Display.update, Display.draw_digit, Display.set_digits] at h
  rcases h1 : pyIndex digits_5x3 (Int.tdiv m 10) with _ | b1 <;> rw [h1] at h
  · simp only [Option.map_none', List.not_mem_nil] at h
  rcases h2 : pyIndex digits_5x3 (Int.emod m 10) with _ | b2 <;> rw [h2] at h
  · simp only [Option.map_some', Option.map_none'] at h
    exact Or.inl ⟨b1, h⟩
  rcases h3 : pyIndex digits_5x3 (Int.tdiv s 10) with _ | b3 <;> rw [h3] at h
  · simp only [Option.map_some', Option.map_none', List.mem_append] at h
    rcases h with h | h
    · exact Or.inl ⟨b1, h⟩
    · exact Or.inr (Or.inl ⟨b2, h⟩)
  rcases h4 : pyIndex digits_5x3 (Int.emod s 10) with _ | b4 <;> rw [h4] at h
  · simp only [Option.map_some', Option.map_none', List.mem_append] at h
    rcases h with (h | h) | h
    · exact Or.inl ⟨b1, h⟩
    · exact Or.inr (Or.inl ⟨b2, h⟩)
    · exact Or.inr (Or.inr (Or.inl ⟨b3, h⟩))
  · simp only [Option.map_some', List.mem_append, List.mem_singleton] at h
    rcases h with ((((h | h) | h) | h) | h) | h
    · exact Or.inl ⟨b1, h⟩
    · exact Or.inr (Or.inl ⟨b2, h⟩)
    · exact Or.inr (Or.inr (Or.inl ⟨b3, h⟩))
    · exact Or.inr (Or.inr (Or.inr (Or.inl ⟨b4, h⟩)))
    · exact Or.inr (Or.inr (Or.inr (Or.inr (Or.inl h))))
    · exact Or.inr (Or.inr (Or.inr (Or.inr (Or.inr h))))

/-- The seconds counter produced by the tick logic stays in `[0, 59]`. -/
theorem tickCounters_seconds_bounds (m s c : Int) (hs0 : 0 ≤ s) (hs : s ≤ 59) :
    0 ≤ (Timer.tickCounters m s c).2.1 ∧ (Timer.tickCounters m s c).2.1 ≤ 59 := by
  rw [tickCounters_cases]
  split_ifs with hA hB hC
  · show 0 ≤ s - 1 ∧ s - 1 ≤ 59
    omega
  · show 0 ≤ (59 : Int) ∧ (59 : Int) ≤ 59
    norm_num
  · exact ⟨hs0, hs⟩
  · exact ⟨hs0, hs⟩

/-- The tick logic never moves the counters off `(0, 0)`. -/
theorem tickCounters_zero (c : Int) :
    (Timer.tickCounters 0 0 c).1 = 0 ∧ (Timer.tickCounters 0 0 c).2.1 = 0 := by
  rw [tickCounters_cases]
  split_ifs with hA hB hC
  · exact absurd hB (by norm_num)
  · exact absurd hC.2 (by norm_num)
  · exact ⟨rfl, rfl⟩
  · exact ⟨rfl, rfl⟩

/-- A `Timer.update` call emits exactly the events of the display call it
makes, whether or not that call fails. -/
theorem update_trace (t : Timer) :
    (Timer.update t).2.1 = (Display.update t.display t.minutes t.seconds).2.1 := by
  simp only [Timer.update]
  split <;> rfl

/-- C9: from every state with nonnegative counters, the reset handler
`key_3` yields exactly `(minutes, seconds) = (0, 0)`, and it is idempotent:
applying it twice gives the same state as applying it once. -/
theorem C9_theorem (t : Timer) (hm : 0 ≤ t.minutes) (hs : 0 ≤ t.seconds) :
    (Timer.key_3 t).minutes = 0 ∧ (Timer.key_3 t).seconds = 0 ∧
      Timer.key_3 (Timer.key_3 t) = Timer.key_3 t :=
  ⟨rfl, rfl, rfl⟩

theorem C9_witness :
    (Timer.key_3 { display := Display.init, seconds := 41, minutes := 7, timerCount := 3 }).minutes = 0 ∧
    (Timer.key_3 { display := Display.init, seconds := 41, minutes := 7, timerCount := 3 }).seconds = 0 ∧
    Timer.key_3 (Timer.key_3 { display := Display.init, seconds := 41, minutes := 7, timerCount := 3 }) =
      Timer.key_3 { display := Display.init, seconds := 41, minutes := 7, timerCount := 3 } :=
  C9_theorem { display := Display.init, seconds := 41, minutes := 7, timerCount := 3 }
    (by norm_num) (by norm_num)

/-- C10: one press of the +30-seconds handler `key_2` increases the total
time `60 * minutes + seconds` by exactly 30, whether or not the carry into
minutes is taken. -/
theorem C10_theorem (t : Timer) (hm : 0 ≤ t.minutes) (hs : 0 ≤ t.seconds) :
    60 * (Timer.key_2 t).minutes + (Timer.key_2 t).seconds =
      60 * t.minutes + t.seconds + 30 := by
  rw [key_2_cases]
  split_ifs with h
  · show 60 * (t.minutes + 1) + (t.seconds + 30 - 60) = 60 * t.minutes + t.seconds + 30
    ring
  · show 60 * t.minutes + (t.seconds + 30) = 60 * t.minutes + t.seconds + 30
    ring

theorem C10_witness :
    60 * (Timer.key_2 { display := Display.init, seconds := 45, minutes := 2, timerCount := 0 }).minutes +
      (Timer.key_2 { display := Display.init, seconds := 45, minutes := 2, timerCount := 0 }).seconds =
    60 * ({ display := Display.init, seconds := 45, minutes := 2, timerCount := 0 } : Timer).minutes +
      ({ display := Display.init, seconds := 45, minutes := 2, timerCount := 0 } : Timer).seconds + 30 :=
  C10_theorem { display := Display.init, seconds := 45, minutes := 2, timerCount := 0 }
    (by norm_num) (by norm_num)

/-- C7: once both counters are zero, any number of further ticks leaves
`(minutes, seconds) = (0, 0)`: no negative time and no wraparound. -/
theorem C7_theorem (t : Timer) (n : Nat) (hm : t.minutes = 0) (hs : t.seconds = 0) :
    (Timer.step^[n] t).minutes = 0 ∧ (Timer.step^[n] t).seconds = 0 := by
  induction n generalizing t with
  | zero => exact ⟨hm, hs⟩
  | succ k ih =>
    rw [Function.iterate_succ_apply]
    have hok := display_ok t.display t.minutes t.seconds (by omega) (by omega)
      (by omega) (by omega)
    obtain ⟨h1, h2, _⟩ := step_counters t hok
    rw [hm, hs] at h1 h2
    obtain ⟨z1, z2⟩ := tickCounters_zero t.timerCount
    exact ih _ (h1.trans z1) (h2.trans z2)

theorem C7_witness :
    (Timer.step^[45] { display := Display.init, seconds := 0, minutes := 0, timerCount := 0 }).minutes = 0 ∧
    (Timer.step^[45] { display := Display.init, seconds := 0, minutes := 0, timerCount := 0 }).seconds = 0 :=
  C7_theorem { display := Display.init, seconds := 0, minutes := 0, timerCount := 0 } 45 rfl rfl

/-- C2: from any state with `minutes ≥ 0` and `seconds ∈ [0, 59]`, `key_1`,
`key_3` and one tick keep seconds in `[0, 59]`.  The +30-seconds handler
`key_2` carries only when the new value strictly exceeds 60, so it keeps
seconds in `[0, 59]` except from `seconds = 30`, where the counter becomes
exactly 60 with no carry. -/
theorem C2_theorem (t : Timer) (hm : 0 ≤ t.minutes) (hs0 : 0 ≤ t.seconds)
    (hs : t.seconds ≤ 59) :
    (0 ≤ (Timer.key_1 t).seconds ∧ (Timer.key_1 t).seconds ≤ 59) ∧
    ((Timer.key_3 t).seconds = 0) ∧
    (0 ≤ (Timer.step t).seconds ∧ (Timer.step t).seconds ≤ 59) ∧
    (t.seconds ≠ 30 → 0 ≤ (Timer.key_2 t).seconds ∧ (Timer.key_2 t).seconds ≤ 59) ∧
    (t.seconds = 30 → (Timer.key_2 t).seconds = 60 ∧ (Timer.key_2 t).minutes = t.minutes) := by
  refine ⟨⟨hs0, hs⟩, rfl, ?_, ?_, ?_⟩
  · cases hok : (Display.update t.display t.minutes t.seconds).2.2 with
    | false =>
      obtain ⟨_, h2, _⟩ := step_counters_fail t hok
      rw [h2]
      exact ⟨hs0, hs⟩
    | true =>
      obtain ⟨_, h2, _⟩ := step_counters t hok
      rw [h2]
      exact tickCounters_seconds_bounds t.minutes t.seconds t.timerCount hs0 hs
  · intro hne
    rw [key_2_cases]
    split_ifs with h
    · show 0 ≤ t.seconds + 30 - 60 ∧ t.seconds + 30 - 60 ≤ 59
      omega
    · show 0 ≤ t.seconds + 30 ∧ t.seconds + 30 ≤ 59
      omega
  · intro h30
    rw [key_2_cases]
    split_ifs with h
    · exact absurd h (by omega)
    · exact ⟨show t.seconds + 30 = 60 by omega, rfl⟩

theorem C2_counterexample :
    (Timer.key_2 { display := Display.init, seconds := 30, minutes := 0, timerCount := 0 }).seconds = 60 ∧
    (Timer.key_2 { display := Display.init, seconds := 30, minutes := 0, timerCount := 0 }).minutes = 0 ∧
    ¬ ((Timer.key_2 { display := Display.init, seconds := 30, minutes := 0, timerCount := 0 }).seconds ≤ 59) := by
  decide

theorem C2_witness :
    (0 ≤ (Timer.step { display := Display.init, seconds := 15, minutes := 2, timerCount := 7 }).seconds ∧
      (Timer.step { display := Display.init, seconds := 15, minutes := 2, timerCount := 7 }).seconds ≤ 59) ∧
    (0 ≤ (Timer.key_2 { display := Display.init, seconds := 15, minutes := 2, timerCount := 7 }).seconds ∧
      (Timer.key_2 { display := Display.init, seconds := 15, minutes := 2, timerCount := 7 }).seconds ≤ 59) :=
  ⟨(C2_theorem { display := Display.init, seconds := 15, minutes := 2, timerCount := 7 }
      (by norm_num) (by norm_num) (by norm_num)).2.2.1,
   (C2_theorem { display := Display.init, seconds := 15, minutes := 2, timerCount := 7 }
      (by norm_num) (by norm_num) (by norm_num)).2.2.2.1 (by norm_num)⟩

/-- C3: after construction the Timer's own counters hold `(0, 0)` (not the
`(5, 1)` the spec claims); the constructor writes `(5, 1)` only into the
Display's digit registers, and the first tick overwrites them: the first
composed frame decodes to `0:00`. -/
theorem C3_theorem (d : Display) :
    (Timer.init d).minutes = 0 ∧ (Timer.init d).seconds = 0 ∧
    (Timer.init d).timerCount = 0 ∧
    (Timer.init d).display.minutes = 5 ∧ (Timer.init d).display.seconds = 1 ∧
    decodeTime (Timer.update (Timer.init d)).2.1 = some (0, 0) := by
  refine ⟨rfl, rfl, rfl, rfl, rfl, ?_⟩
  have h := (decodeTime_update (Timer.init d).display 0 0 (by norm_num) (by norm_num)).2
  rw [update_trace]
  simpa using h

theorem C3_counterexample :
    (Timer.init Display.init).minutes = 0 ∧ (Timer.init Display.init).seconds = 0 ∧
    ¬ ((Timer.init Display.init).minutes = 5 ∧ (Timer.init Display.init).seconds = 1) := by
  decide

/-- Starting with a fresh tick counter and in-range digits, the first 19
ticks only advance the tick counter. -/
theorem step_iter_idle (d : Display) (m s : Nat) (hm : m ≤ 99) (hs : s ≤ 99) :
    ∀ k : Nat, k ≤ 19 →
      (Timer.step^[k] { display := d, seconds := (s : Int), minutes := (m : Int), timerCount := 0 }).minutes = (m : Int) ∧
      (Timer.step^[k] { display := d, seconds := (s : Int), minutes := (m : Int), timerCount := 0 }).seconds = (s : Int) ∧
      (Timer.step^[k] { display := d, seconds := (s : Int), minutes := (m : Int), timerCount := 0 }).timerCount = (k : Int) := by
  intro k
  induction k with
  | zero => exact fun _ => ⟨rfl, rfl, rfl⟩
  | succ n ih =>
    intro hk
    obtain ⟨h1, h2, h3⟩ := ih (by omega)
    rw [Function.iterate_succ_apply']
    have hb1 : 0 ≤ (Timer.step^[n] { display := d, seconds := (s : Int), minutes := (m : Int), timerCount := 0 }).minutes := by
      rw [h1]; omega
    have hb2 : (Timer.step^[n] { display := d, seconds := (s : Int), minutes := (m : Int), timerCount := 0 }).minutes ≤ 99 := by
      rw [h1]; omega
    have hb3 : 0 ≤ (Timer.step^[n] { display := d, seconds := (s : Int), minutes := (m : Int), timerCount := 0 }).seconds := by
      rw [h2]; omega
    have hb4 : (Timer.step^[n] { display := d, seconds := (s : Int), minutes := (m : Int), timerCount := 0 }).seconds ≤ 99 := by
      rw [h2]; omega
    have hok := display_ok (Timer.step^[n] { display := d, seconds := (s : Int), minutes := (m : Int), timerCount := 0 }).display _ _ hb1 hb2 hb3 hb4
    obtain ⟨g1, g2, g3⟩ := step_counters _ hok
    rw [h1, h2, h3] at g1 g2 g3
    rw [tickCounters_cases] at g1 g2 g3
    have hne : ¬ Int.emod ((n : Int) + 1) 20 = 0 := by
      show ¬ ((n : Int) + 1) % 20 = 0
      omega
    rw [if_neg hne] at g1 g2 g3
    refine ⟨g1, g2, ?_⟩
    rw [g3]
    push_cast
    ring

/-- C6: for in-range states (`m ≤ 99`, `s ∈ [0, 59]`) and a fresh tick
counter, the first 19 ticks leave `(minutes, seconds)` unchanged and the
20th performs exactly one unit of countdown: seconds decrease by 1 when
positive, else a minute is borrowed as 59 seconds. -/
theorem C6_theorem (d : Display) (m s : Nat) (hm : m ≤ 99) (hs : s ≤ 59) :
    (∀ k : Nat, k ≤ 19 →
      (Timer.step^[k] { display := d, seconds := (s : Int), minutes := (m : Int), timerCount := 0 }).minutes = (m : Int) ∧
      (Timer.step^[k] { display := d, seconds := (s : Int), minutes := (m : Int), timerCount := 0 }).seconds = (s : Int)) ∧
    (0 < s →
      (Timer.step^[20] { display := d, seconds := (s : Int), minutes := (m : Int), timerCount := 0 }).minutes = (m : Int) ∧
      (Timer.step^[20] { display := d, seconds := (s : Int), minutes := (m : Int), timerCount := 0 }).seconds = (s : Int) - 1) ∧
    (s = 0 → 0 < m →
      (Timer.step^[20] { display := d, seconds := (s : Int), minutes := (m : Int), timerCount := 0 }).minutes = (m : Int) - 1 ∧
      (Timer.step^[20] { display := d, seconds := (s : Int), minutes := (m : Int), timerCount := 0 }).seconds = 59) := by
  have hidle := step_iter_idle d m s hm (by omega)
  refine ⟨fun k hk => ⟨(hidle k hk).1, (hidle k hk).2.1⟩, ?_, ?_⟩
  all_goals
    obtain ⟨h1, h2, h3⟩ := hidle 19 (by norm_num)
    rw [show (20 : Nat) = 19 + 1 from rfl, Function.iterate_succ_apply']
    have hb1 : 0 ≤ (Timer.step^[19] { display := d, seconds := (s : Int), minutes := (m : Int), timerCount := 0 }).minutes := by
      rw [h1]; omega
    have hb2 : (Timer.step^[19] { display := d, seconds := (s : Int), minutes := (m : Int), timerCount := 0 }).minutes ≤ 99 := by
      rw [h1]; omega
    have hb3 : 0 ≤ (Timer.step^[19] { display := d, seconds := (s : Int), minutes := (m : Int), timerCount := 0 }).seconds := by
      rw [h2]; omega
    have hb4 : (Timer.step^[19] { display := d, seconds := (s : Int), minutes := (m : Int), timerCount := 0 }).seconds ≤ 99 := by
      rw [h2]; omega
    have hok := display_ok (Timer.step^[19] { display := d, seconds := (s : Int), minutes := (m : Int), timerCount := 0 }).display _ _ hb1 hb2 hb3 hb4
    obtain ⟨g1, g2, g3⟩ := step_counters _ hok
    rw [h1, h2, h3] at g1 g2 g3
    rw [tickCounters_cases] at g1 g2
    rw [if_pos (show Int.emod (((19 : Nat) : Int) + 1) 20 = 0 by decide)] at g1 g2
  · intro hspos
    rw [if_pos (show 0 < (s : Int) by omega)] at g1 g2
    exact ⟨g1, g2⟩
  · intro hs0 hmpos
    rw [if_neg (show ¬ 0 < (s : Int) by omega)] at g1 g2
    rw [if_pos (show (s : Int) = 0 ∧ 0 < (m : Int) by omega)] at g1 g2
    exact ⟨g1, g2⟩

set_option maxRecDepth 20000 in
/-- C6 fails as frozen for `m ≥ 100`: the display call inside every tick
raises before the counter logic runs, so the 20th tick does not count down
(seconds stay 5 instead of becoming 4). -/
theorem C6_counterexample :
    (Timer.step^[20] { display := Display.init, seconds := 5, minutes := 100, timerCount := 0 }).seconds = 5 ∧
    ¬ ((Timer.step^[20] { display := Display.init, seconds := 5, minutes := 100, timerCount := 0 }).seconds = 5 - 1) := by
  decide

theorem C6_witness :
    (Timer.step^[20] { display := Display.init, seconds := ((1 : Nat) : Int), minutes := ((5 : Nat) : Int), timerCount := 0 }).minutes = ((5 : Nat) : Int) ∧
    (Timer.step^[20] { display := Display.init, seconds := ((1 : Nat) : Int), minutes := ((5 : Nat) : Int), timerCount := 0 }).seconds = ((1 : Nat) : Int) - 1 :=
  (C6_theorem Display.init 5 1 (by norm_num) (by norm_num)).2.1 (by norm_num)

/-- C5: the glyph lookup with Python indexing semantics: every digit in
`[0, 9]` has a glyph (15 bits, hence 3x5, with at least one lit cell);
indices 10 and above, and -11 and below, raise `IndexError`; but indices in
`[-10, -1]` do NOT fail — they silently alias the glyph of `d + 10`. -/
theorem C5_theorem (dg : Int) :
    (0 ≤ dg → dg ≤ 9 →
      ∃ bits, pyIndex digits_5x3 dg = some bits ∧ bits ≠ 0 ∧ bits < 2 ^ 15) ∧
    (10 ≤ dg → pyIndex digits_5x3 dg = none) ∧
    (dg ≤ -11 → pyIndex digits_5x3 dg = none) ∧
    (-10 ≤ dg → dg ≤ -1 →
      pyIndex digits_5x3 dg = pyIndex digits_5x3 (dg + 10) ∧
      (pyIndex digits_5x3 dg).isSome = true) := by
  refine ⟨?_, ?_, ?_, ?_⟩
  · intro h0 h9
    interval_cases dg <;> exact ⟨_, rfl, by decide, by decide⟩
  · intro h
    exact pyIndex_ge_ten dg h
  · intro h
    exact pyIndex_le_neg dg h
  · intro h1 h2
    interval_cases dg <;> exact ⟨by decide, by decide⟩

theorem C5_counterexample :
    pyIndex digits_5x3 (-1) = some 0b111001010011111 ∧
    Display.draw_digit (-1) 1 1 249 82 255 = Display.draw_digit 9 1 1 249 82 255 ∧
    (Display.draw_digit (-1) 1 1 249 82 255).isSome = true := by
  decide

theorem C5_witness :
    pyIndex digits_5x3 12 = none ∧
    (∃ bits, pyIndex digits_5x3 3 = some bits ∧ bits ≠ 0 ∧ bits < 2 ^ 15) :=
  ⟨(C5_theorem 12).2.1 (by norm_num), (C5_theorem 3).1 (by norm_num) (by norm_num)⟩

/-- The emitted frame (and the success flag) depend only on the arguments of
`Display.update`, never on the stored colours or brightnesses. -/
theorem update_trace_indep (d1 d2 : Display) (m s : Int) :
    (Display.update d1 m s).2 = (Display.update d2 m s).2 := by
  simp only [Display.update, Display.draw_digit, Display.set_digits]
  rcases h1 : pyIndex digits_5x3 (Int.tdiv m 10) with _ | b1
  · simp only [h1, Option.map_none']
  · simp only [h1, Option.map_some']
    rcases h2 : pyIndex digits_5x3 (Int.emod m 10) with _ | b2
    · simp only [h2, Option.map_none']
    · simp only [h2, Option.map_some']
      rcases h3 : pyIndex digits_5x3 (Int.tdiv s 10) with _ | b3
      · simp only [h3, Option.map_none']
      · simp only [h3, Option.map_some']
        rcases h4 : pyIndex digits_5x3 (Int.emod s 10) with _ | b4
        · simp only [h4, Option.map_none']
        · simp only [h4, Option.map_some']

/-- C1: the composed frame does NOT use the stored per-field colours and
brightnesses: every lit glyph cell of the minute field (columns 1–7) is
written with the fixed colour `(249, 82, 255)`, every lit cell of the second
field (columns 9–15) with the fixed `(5, 255, 161)`, and the colon (column 8)
with `(255, 0, 0)`; the emitted events are identical whatever
`set_digit_color` / `set_digit_brightness` stored. -/
theorem C1_theorem (d : Display) (m s : Int) :
    (Display.update d m s).2 = (Display.update Display.init m s).2 ∧
    (∀ x y r g b : Int, Ev.setPixel x y r g b ∈ (Display.update d m s).2.1 →
      (x ≤ 7 → (r, g, b) = ((249 : Int), 82, 255)) ∧
      (9 ≤ x → (r, g, b) = ((5 : Int), 255, 161)) ∧
      (x = 8 → (r, g, b) = ((255 : Int), 0, 0))) := by
  refine ⟨update_trace_indep d Display.init m s, ?_⟩
  intro x y r g b hmem
  rcases mem_update_trace hmem with ⟨bits, h⟩ | ⟨bits, h⟩ | ⟨bits, h⟩ | ⟨bits, h⟩ | h | h
  · obtain ⟨dx, dy, hdx, hdy, _, he⟩ := mem_digitEvents.mp h
    rw [Ev.setPixel.injEq] at he
    obtain ⟨hx, hy, hr, hg, hb⟩ := he
    subst hr; subst hg; subst hb
    exact ⟨fun _ => rfl, fun h9 => absurd h9 (by omega), fun h8 => absurd h8 (by omega)⟩
  · obtain ⟨dx, dy, hdx, hdy, _, he⟩ := mem_digitEvents.mp h
    rw [Ev.setPixel.injEq] at he
    obtain ⟨hx, hy, hr, hg, hb⟩ := he
    subst hr; subst hg; subst hb
    exact ⟨fun _ => rfl, fun h9 => absurd h9 (by omega), fun h8 => absurd h8 (by omega)⟩
  · obtain ⟨dx, dy, hdx, hdy, _, he⟩ := mem_digitEvents.mp h
    rw [Ev.setPixel.injEq] at he
    obtain ⟨hx, hy, hr, hg, hb⟩ := he
    subst hr; subst hg; subst hb
    exact ⟨fun h7 => absurd h7 (by omega), fun _ => rfl, fun h8 => absurd h8 (by omega)⟩
  · obtain ⟨dx, dy, hdx, hdy, _, he⟩ := mem_digitEvents.mp h
    rw [Ev.setPixel.injEq] at he
    obtain ⟨hx, hy, hr, hg, hb⟩ := he
    subst hr; subst hg; subst hb
    exact ⟨fun h7 => absurd h7 (by omega), fun _ => rfl, fun h8 => absurd h8 (by omega)⟩
  · simp only [Display.colonEvents, List.mem_cons, List.not_mem_nil, or_false] at h
    rcases h with he | he
    all_goals
      rw [Ev.setPixel.injEq] at he
      obtain ⟨hx, hy, hr, hg, hb⟩ := he
      subst hr; subst hg; subst hb
      exact ⟨fun h7 => absurd h7 (by omega), fun h9 => absurd h9 (by omega), fun _ => rfl⟩
  · exact absurd h (by simp)

theorem C1_counterexample :
    (Display.update Display.init 0 0).2.1.head? = some (Ev.setPixel 1 1 249 82 255) ∧
    Display.init.digit_left_color = (128, 128, 128) ∧
    Display.init.digit_left_br = 1 ∧
    scaledColor Display.init.digit_left_color Display.init.digit_left_br = (128, 128, 128) ∧
    ((249 : Int), (82 : Int), (255 : Int)) ≠ ((128 : Int), 128, 128) := by
  refine ⟨by decide, rfl, rfl, by simp [scaledColor, Display.init], by decide⟩

theorem C1_witness :
    Ev.setPixel 1 1 249 82 255 ∈ (Display.update Display.init 0 0).2.1 ∧
    ((249 : Int), (82 : Int), (255 : Int)) = ((249 : Int), 82, 255) :=
  ⟨by decide, ((C1_theorem Display.init 0 0).2 1 1 249 82 255 (by decide)).1 (by norm_num)⟩

/-- C4: for in-range times (`m ≤ 99`, `s ≤ 59`) the frame rendered by
`Display.update` decodes, via the inverse of the bitmap-font mapping, back to
exactly `(m, s)`; but minutes of 100 or more do NOT wrap visually — the
minute-tens lookup index is 10 or more, the draw raises `IndexError`, and
nothing is rendered. -/
theorem C4_theorem (d : Display) (m s : Nat) :
    (m ≤ 99 → s ≤ 59 →
      (Display.update d (m : Int) (s : Int)).2.2 = true ∧
      decodeTime (Display.update d (m : Int) (s : Int)).2.1 = some (m, s)) ∧
    (100 ≤ m →
      Display.update d (m : Int) (s : Int) =
        (Display.set_digits d (m : Int) (s : Int), [], false)) :=
  ⟨fun hm hs => decodeTime_update d m s hm hs,
   fun hm => display_update_overflow d m s hm⟩

theorem C4_counterexample :
    decodeTime (Display.update Display.init 100 0).2.1 ≠ some (100 % 100, 0) ∧
    (Display.update Display.init 100 0).2.2 = false := by
  decide

theorem C4_witness :
    (Display.update Display.init ((35 : Nat) : Int) ((7 : Nat) : Int)).2.2 = true ∧
    decodeTime (Display.update Display.init ((35 : Nat) : Int) ((7 : Nat) : Int)).2.1 = some (35, 7) :=
  (C4_theorem Display.init 35 7).1 (by norm_num) (by norm_num)

/-- C8: on in-range arguments a `Display.update` call emits exactly one
`show`, and it comes after every `set_pixel` of the frame (it is the last
event); but a call whose glyph lookup fails (minutes ≥ 100) raises before
`show` and presents nothing. -/
theorem C8_theorem (d : Display) (m s : Nat) :
    (m ≤ 99 → s ≤ 99 →
      (Display.update d (m : Int) (s : Int)).2.1.count Ev.present = 1 ∧
      (Display.update d (m : Int) (s : Int)).2.1.getLast? = some Ev.present) ∧
    (100 ≤ m → (Display.update d (m : Int) (s : Int)).2.1.count Ev.present = 0) := by
  constructor
  · intro hm hs
    rw [display_update_eq d m s hm hs]
    constructor
    · show (frameEvents (digits_5x3.getD (m / 10) 0) (digits_5x3.getD (m % 10) 0)
        (digits_5x3.getD (s / 10) 0) (digits_5x3.getD (s % 10) 0)).count Ev.present = 1
      rw [frameEvents, List.count_append, List.count_append, List.count_append,
        List.count_append, List.count_append]
      rw [List.count_eq_zero.mpr (present_not_mem_digitEvents _ _ _ _ _ _),
        List.count_eq_zero.mpr (present_not_mem_digitEvents _ _ _ _ _ _),
        List.count_eq_zero.mpr (present_not_mem_digitEvents _ _ _ _ _ _),
        List.count_eq_zero.mpr (present_not_mem_digitEvents _ _ _ _ _ _)]
      rfl
    · show (frameEvents (digits_5x3.getD (m / 10) 0) (digits_5x3.getD (m % 10) 0)
        (digits_5x3.getD (s / 10) 0) (digits_5x3.getD (s % 10) 0)).getLast? = some Ev.present
      rw [frameEvents]
      exact List.getLast?_concat _
  · intro hm
    rw [display_update_overflow d m s hm]
    rfl

theorem C8_counterexample :
    (Display.update Display.init 100 0).2.1.count Ev.present = 0 ∧
    ¬ ((Display.update Display.init 100 0).2.1.count Ev.present = 1) := by
  decide

theorem C8_witness :
    (Display.update Display.init ((5 : Nat) : Int) ((1 : Nat) : Int)).2.1.count Ev.present = 1 ∧
    (Display.update Display.init ((5 : Nat) : Int) ((1 : Nat) : Int)).2.1.getLast? = some Ev.present :=
  (C8_theorem Display.init 5 1).1 (by norm_num) (by norm_num)
